import Mathlib

/-!
Verification of the response-parsing and command-dispatch logic of the
ESP32 hand-controller configuration tool
(`firmware/remote firmware/ble_spp_client/esp32_controller.py`).

The Python functions `clean_response`, `parse_config_response`,
`parse_config_display`, `process_response` and the command-dispatch
handlers are embedded as executable Lean functions over `List Char` /
`String`.  Python operations that can raise (`float`, `int`, list
indexing) are modelled as `Option`-valued functions; a `try/except`
block is modelled by recovering from `none`.
-/

namespace ESP32

/-- Python `str.strip()` whitespace set restricted to the ASCII whitespace
characters (space, tab, newline, carriage return, vertical tab, form feed).
Non-ASCII Unicode whitespace is not modelled; no device response uses it. -/
def pyWs (c : Char) : Bool :=
  c = ' ' || c = '\t' || c = '\n' || c = '\r' || c = Char.ofNat 11 || c = Char.ofNat 12

/-- Python `str.strip()`: drop whitespace from both ends. -/
def pyStrip (l : List Char) : List Char :=
  List.rdropWhile pyWs (l.dropWhile pyWs)

/-- `pyStrip` on `String`s. -/
def pyStripS (s : String) : String :=
  String.mk (pyStrip s.data)

/-- Python `str.lower()` (ASCII letters only, which is all the code compares). -/
def pyLower (s : String) : String :=
  String.mk (s.data.map Char.toLower)

/-- Python `needle in hay` substring containment. -/
def isSubstring (needle : List Char) : List Char → Bool
  | [] => needle.isPrefixOf []
  | c :: t => needle.isPrefixOf (c :: t) || isSubstring needle t

/-- Python `needle in hay` on `String`s. -/
def pyContains (needle hay : String) : Bool :=
  isSubstring needle.data hay.data

/-- Python `s.split('\n')`: split on every newline, keeping empty pieces. -/
def splitNl : List Char → List (List Char)
  | [] => [[]]
  | c :: rest =>
    if c = '\n' then [] :: splitNl rest
    else
      match splitNl rest with
      | [] => [[c]]
      | l :: ls => (c :: l) :: ls

/-- Python `'\n'.join(pieces)`. -/
def joinNl : List (List Char) → List Char
  | [] => []
  | [l] => l
  | l :: ls => l ++ '\n' :: joinNl ls

/-- Python `s.split('\n')` on `String`s. -/
def pySplitLines (s : String) : List String :=
  (splitNl s.data).map String.mk

/-- Python `s.split(sep)` for a non-empty separator, with explicit fuel
(initialised to the list length, which is always sufficient): split on each
non-overlapping occurrence of `sep`, scanning left to right, keeping empty
pieces. -/
def pySplitSepF : Nat → List Char → List Char → List (List Char)
  | 0, _, l => [l]
  | _ + 1, _, [] => [[]]
  | f + 1, sep, c :: rest =>
    if sep.isPrefixOf (c :: rest) then
      [] :: pySplitSepF f sep ((c :: rest).drop sep.length)
    else
      match pySplitSepF f sep rest with
      | [] => [[c]]
      | l :: ls => (c :: l) :: ls

/-- Python `s.split(sep)` on `String`s. -/
def pySplit (s sep : String) : List String :=
  (pySplitSepF s.data.length sep.data s.data).map String.mk

/-- Python `s.split()` (no separator): split on whitespace runs, dropping
empty pieces.  `acc` holds the current piece reversed. -/
def pyWsSplitAux : List Char → List Char → List (List Char)
  | [], acc => if acc.isEmpty then [] else [acc.reverse]
  | c :: rest, acc =>
    if pyWs c then
      if acc.isEmpty then pyWsSplitAux rest []
      else acc.reverse :: pyWsSplitAux rest []
    else pyWsSplitAux rest (c :: acc)

/-- Python `s.split()` with no separator argument. -/
def pyWsSplit (l : List Char) : List (List Char) :=
  pyWsSplitAux l []

/-- Python `line.split(':', 1)`, first component (text before the first colon). -/
def keyPart (l : List Char) : List Char :=
  l.takeWhile (fun c => c ≠ ':')

/-- Python `line.split(':', 1)`, second component (text after the first colon). -/
def valPart (l : List Char) : List Char :=
  (l.dropWhile (fun c => c ≠ ':')).tail

/-- Decimal digits to a natural number. -/
def digitsToNat (l : List Char) : Nat :=
  l.foldl (fun a c => a * 10 + (c.toNat - 48)) 0

/-- Python `int(s)`: strip whitespace, optional sign, one or more digits.
`none` models a raised `ValueError`.  Underscore digit separators are not
modelled (no device response uses them). -/
def pyInt (s : String) : Option Int :=
  let l := pyStrip s.data
  let sd : Int × List Char :=
    match l with
    | '+' :: r => (1, r)
    | '-' :: r => (-1, r)
    | r => (1, r)
  if sd.2.isEmpty || !sd.2.all Char.isDigit then none
  else some (sd.1 * digitsToNat sd.2)

/-- Exponent part of a Python float literal: optional sign then digits. -/
def pyExp (l : List Char) : Option Int :=
  let sd : Int × List Char :=
    match l with
    | '+' :: r => (1, r)
    | '-' :: r => (-1, r)
    | r => (1, r)
  if sd.2.isEmpty || !sd.2.all Char.isDigit then none
  else some (sd.1 * digitsToNat sd.2)

/-- Python `float(s)` on finite decimal literals, valued in exact rationals:
strip whitespace, optional sign, `digits[.digits]` or `.digits` or `digits.`,
optional `e`/`E` exponent.  `none` models a raised `ValueError`.  IEEE-754
rounding, `inf`/`nan` and underscore separators are not modelled; no claim
settled here depends on them. -/
def pyFloat (s : String) : Option Rat :=
  let l := pyStrip s.data
  let sb : Rat × List Char :=
    match l with
    | '+' :: r => (1, r)
    | '-' :: r => (-1, r)
    | r => (1, r)
  let intPart := sb.2.takeWhile Char.isDigit
  let rest := sb.2.dropWhile Char.isDigit
  let mantissa : Option (Rat × List Char) :=
    match rest with
    | '.' :: r2 =>
      let frac := r2.takeWhile Char.isDigit
      let r3 := r2.dropWhile Char.isDigit
      if intPart.isEmpty && frac.isEmpty then none
      else some ((digitsToNat intPart : Rat) +
        (digitsToNat frac : Rat) / ((10 : Rat) ^ frac.length), r3)
    | r2 => if intPart.isEmpty then none else some ((digitsToNat intPart : Rat), r2)
  match mantissa with
  | none => none
  | some (m, r3) =>
    match r3 with
    | [] => some (sb.1 * m)
    | e :: r4 =>
      if e = 'e' || e = 'E' then
        match pyExp r4 with
        | some k => some (sb.1 * m * (10 : Rat) ^ k)
        | none => none
      else none

/-! ### ANSI escape removal

The source removes ANSI sequences with a compiled regex: ESC followed by
either one byte in `0x40`–`0x5A` / `0x5C`–`0x5F`, or an opening bracket,
any number of parameter bytes (`0x30`–`0x3F`), any number of intermediate
bytes (`0x20`–`0x2F`) and one final byte (`0x40`–`0x7E`); every match is
replaced by the empty string.
The character classes of the CSI branch are pairwise disjoint, so the
regex is deterministic and `re.sub`'s leftmost, non-overlapping greedy
matching is implemented by direct recursion.  The recursion is written
with an explicit fuel argument (initialised to the list length, which is
always sufficient) so that it reduces inside the kernel. -/

/-- The ESC character `\x1B`. -/
def escChar : Char := Char.ofNat 27

/-- Single-character escape class of the regex: `0x40`–`0x5A` or `0x5C`–`0x5F`. -/
def isEscSingleByte (c : Char) : Bool :=
  (0x40 ≤ c.toNat && c.toNat ≤ 0x5A) || (0x5C ≤ c.toNat && c.toNat ≤ 0x5F)

/-- CSI parameter byte class: `0x30`–`0x3F`. -/
def isParamByte (c : Char) : Bool :=
  0x30 ≤ c.toNat && c.toNat ≤ 0x3F

/-- CSI intermediate byte class: `0x20`–`0x2F`. -/
def isInterByte (c : Char) : Bool :=
  0x20 ≤ c.toNat && c.toNat ≤ 0x2F

/-- CSI final byte class: `0x40`–`0x7E`. -/
def isFinalByte (c : Char) : Bool :=
  0x40 ≤ c.toNat && c.toNat ≤ 0x7E

/-- Match the CSI tail (parameter bytes, then intermediate bytes, then one
final byte) at the front of `l`; return the rest on success. -/
def csiTail (l : List Char) : Option (List Char) :=
  match (l.dropWhile isParamByte).dropWhile isInterByte with
  | c :: rest => if isFinalByte c then some rest else none
  | [] => none

/-- Match the part of the regex after ESC (a single-character escape, or an
opening bracket followed by a CSI tail) at the front of `l`; return the rest
on success. -/
def ansiMatch : List Char → Option (List Char)
  | [] => none
  | c :: rest =>
    if isEscSingleByte c then some rest
    else if c = '[' then csiTail rest
    else none

/-- The concrete ANSI reset sequence used by the wrap-invariance theorem. -/
def resetSuf : List Char := [escChar, '[', '0', 'm']

/-- The concrete ANSI green-colour sequence used by the wrap-invariance theorem. -/
def greenPre : List Char := [escChar, '[', '3', '2', 'm']

/-- `re.sub(ansi_escape, '', ·)` with explicit fuel. -/
def ansiSubF : Nat → List Char → List Char
  | 0, l => l
  | _ + 1, [] => []
  | f + 1, c :: rest =>
    if c = escChar then
      match ansiMatch rest with
      | some r2 => ansiSubF f r2
      | none => c :: ansiSubF f rest
    else c :: ansiSubF f rest

/-- `ansi_escape.sub('', l)`: remove all ANSI escape sequences. -/
def ansiSub (l : List Char) : List Char :=
  ansiSubF l.length l

/-- The verbose-log markers filtered by `clean_response`, in source order. -/
def skipMarkers : List String :=
  ["I (", "USB_SERIAL: Processing command:",
   "USB_SERIAL: Parsed command type:",
   "USB_SERIAL: Motor pulley teeth set to:",
   "USB_SERIAL: Wheel pulley teeth set to:",
   "USB_SERIAL: Wheel diameter set to:",
   "USB_SERIAL: Motor poles set to:",
   "USB_SERIAL: Throttle inversion:",
   "USB_SERIAL: Level assistant:",
   "USB_SERIAL: Odometer reset",
   "USB_SERIAL: Configuration:",
   "USB_SERIAL: Available commands:",
   "USB_SERIAL: Unknown command:"]

/-- Body of the `for line in lines` loop of `clean_response`: strip the line,
drop it (`none`) when empty, when it contains a skip marker, or when it is
`'>'` or `''`; otherwise keep the stripped line. -/
def filterLine (l : List Char) : Option (List Char) :=
  let line := pyStrip l
  if line.isEmpty then none
  else if skipMarkers.any (fun p => isSubstring p.data line) then none
  else if line = ['>'] || line = [] then none
  else some line

/-- `clean_response`: remove ANSI codes, split on newlines, filter each line,
rejoin; `none` when no line survives. -/
def clean_response (s : String) : Option String :=
  let cleaned := ansiSub s.data
  let lines := splitNl cleaned
  let filtered := lines.filterMap filterLine
  if filtered.isEmpty then none else some (String.mk (joinNl filtered))

/-! ### Configuration state -/

/-- The `self.config` dictionary.  PID values are modelled as exact
rationals (see `pyFloat`). -/
structure Config where
  invert_throttle : Bool
  level_assistant : Bool
  motor_pulley : Int
  wheel_pulley : Int
  wheel_diameter_mm : Int
  motor_poles : Int
  ble_connected : Bool
  pid_kp : Rat
  pid_ki : Rat
  pid_kd : Rat
  pid_output_max : Rat
deriving DecidableEq

/-- The defaults installed in `__init__`. -/
def defaultConfig : Config where
  invert_throttle := false
  level_assistant := false
  motor_pulley := 15
  wheel_pulley := 33
  wheel_diameter_mm := 115
  motor_poles := 14
  ble_connected := false
  pid_kp := 0.8
  pid_ki := 0.5
  pid_kd := 0.05
  pid_output_max := 48.0

/-! ### Structured display parser (`parse_config_display`) -/

/-- Truthy value set for the boolean display fields. -/
def truthyBool : List String := ["yes", "enabled", "true"]

/-- Truthy value set for the BLE-connected display field. -/
def truthyBle : List String := ["yes", "connected", "true"]

/-- Body of the `for line in lines` loop of `parse_config_display`.  The
per-line `try/except` is modelled by `Option.getD cfg`: any `none` (raised
exception) inside the block leaves the configuration unchanged and moves on
to the next line. -/
def displayLine (cfg : Config) (line : String) : Config :=
  if line.data.contains ':' then
    (do
      let key := pyStripS (String.mk (keyPart line.data))
      let value := pyStripS (String.mk (valPart line.data))
      if key = "Throttle Inverted" ∨ key = "Throttle inversion" then
        some { cfg with invert_throttle := truthyBool.contains (pyLower value) }
      else if key = "Level Assistant" ∨ key = "Level assistant" then
        some { cfg with level_assistant := truthyBool.contains (pyLower value) }
      else if key = "Motor Pulley Teeth" ∨ key = "Motor pulley teeth" then do
        let n ← pyInt value
        some { cfg with motor_pulley := n }
      else if key = "Wheel Pulley Teeth" ∨ key = "Wheel pulley teeth" then do
        let n ← pyInt value
        some { cfg with wheel_pulley := n }
      else if key = "Wheel Diameter" ∨ key = "Wheel diameter" then do
        let diameter ← if value.data.contains ' '
          then (pyWsSplit value.data).head?.map String.mk
          else some value
        let n ← pyInt diameter
        some { cfg with wheel_diameter_mm := n }
      else if key = "Motor Poles" ∨ key = "Motor poles" then do
        let n ← pyInt value
        some { cfg with motor_poles := n }
      else if key = "BLE Connected" ∨ key = "BLE connected" then
        some { cfg with ble_connected := truthyBle.contains (pyLower value) }
      else
        some cfg).getD cfg
  else cfg

/-- `parse_config_display`: split on newlines, process each colon line. -/
def parse_config_display (cfg : Config) (response : String) : Config :=
  (pySplitLines response).foldl displayLine cfg

/-! ### Config parser (`parse_config_response`)

Each block of the source function becomes one step returning
`Option Config`; `none` would model an exception escaping the step, and
`tryPass` models an inner `try/except: pass`. -/

/-- Inner `try: ... except: pass` around a block producing a configuration:
recover from an escaping exception, keeping the prior configuration. -/
def tryPass (prior : Config) (body : Option Config) : Option Config :=
  some (body.getD prior)

/-- Throttle-inversion block. -/
def throttleStep (r : String) (cfg : Config) : Option Config :=
  if pyContains "Throttle inversion: ENABLED" r then
    some { cfg with invert_throttle := true }
  else if pyContains "Throttle inversion: DISABLED" r then
    some { cfg with invert_throttle := false }
  else some cfg

/-- Level-assistant block. -/
def levelStep (r : String) (cfg : Config) : Option Config :=
  if pyContains "Level assistant: ENABLED" r then
    some { cfg with level_assistant := true }
  else if pyContains "Level assistant: DISABLED" r then
    some { cfg with level_assistant := false }
  else some cfg

/-- PID Kp echo block. -/
def kpStep (r : String) (cfg : Config) : Option Config :=
  if pyContains "PID Kp set to:" r then
    tryPass cfg (do
      let p ← (pySplit r "PID Kp set to:")[1]?
      let v ← pyFloat (pyStripS p)
      some { cfg with pid_kp := v })
  else some cfg

/-- PID Ki echo block. -/
def kiStep (r : String) (cfg : Config) : Option Config :=
  if pyContains "PID Ki set to:" r then
    tryPass cfg (do
      let p ← (pySplit r "PID Ki set to:")[1]?
      let v ← pyFloat (pyStripS p)
      some { cfg with pid_ki := v })
  else some cfg

/-- PID Kd echo block. -/
def kdStep (r : String) (cfg : Config) : Option Config :=
  if pyContains "PID Kd set to:" r then
    tryPass cfg (do
      let p ← (pySplit r "PID Kd set to:")[1]?
      let v ← pyFloat (pyStripS p)
      some { cfg with pid_kd := v })
  else some cfg

/-- PID output-max echo block. -/
def outputMaxStep (r : String) (cfg : Config) : Option Config :=
  if pyContains "PID Output Max set to:" r then
    tryPass cfg (do
      let p ← (pySplit r "PID Output Max set to:")[1]?
      let v ← pyFloat (pyStripS p)
      some { cfg with pid_output_max := v })
  else some cfg

/-- Body of the `for line in lines` loop of the PID-parameters display block;
each branch has its own `try/except: pass`. -/
def pidBlockLine (cfg : Config) (line : String) : Config :=
  if pyContains "Kp (Proportional):" line then
    ((do
      let p ← (pySplit line ":")[1]?
      let v ← pyFloat (pyStripS p)
      some { cfg with pid_kp := v }).getD cfg)
  else if pyContains "Ki (Integral):" line then
    ((do
      let p ← (pySplit line ":")[1]?
      let v ← pyFloat (pyStripS p)
      some { cfg with pid_ki := v }).getD cfg)
  else if pyContains "Kd (Derivative):" line then
    ((do
      let p ← (pySplit line ":")[1]?
      let v ← pyFloat (pyStripS p)
      some { cfg with pid_kd := v }).getD cfg)
  else if pyContains "Output Max:" line then
    ((do
      let p ← (pySplit line ":")[1]?
      let v ← pyFloat (pyStripS p)
      some { cfg with pid_output_max := v }).getD cfg)
  else cfg

/-- PID-parameters display block (response of `get_pid_params`). -/
def pidBlockStep (r : String) (cfg : Config) : Option Config :=
  if pyContains "=== Level Assistant PID Parameters ===" r then
    some ((pySplitLines r).foldl pidBlockLine cfg)
  else some cfg

/-- Motor-pulley echo block. -/
def motorPulleyStep (r : String) (cfg : Config) : Option Config :=
  if pyContains "Motor pulley teeth set to:" r then
    tryPass cfg (do
      let p ← (pySplit r "Motor pulley teeth set to:")[1]?
      let n ← pyInt (pyStripS p)
      some { cfg with motor_pulley := n })
  else some cfg

/-- Wheel-pulley echo block. -/
def wheelPulleyStep (r : String) (cfg : Config) : Option Config :=
  if pyContains "Wheel pulley teeth set to:" r then
    tryPass cfg (do
      let p ← (pySplit r "Wheel pulley teeth set to:")[1]?
      let n ← pyInt (pyStripS p)
      some { cfg with wheel_pulley := n })
  else some cfg

/-- Wheel-diameter echo block (payload may carry a `mm` unit suffix). -/
def wheelDiameterStep (r : String) (cfg : Config) : Option Config :=
  if pyContains "Wheel diameter set to:" r then
    tryPass cfg (do
      let p ← (pySplit r "Wheel diameter set to:")[1]?
      let q ← (pySplit p "mm")[0]?
      let n ← pyInt (pyStripS q)
      some { cfg with wheel_diameter_mm := n })
  else some cfg

/-- Motor-poles echo block. -/
def motorPolesStep (r : String) (cfg : Config) : Option Config :=
  if pyContains "Motor poles set to:" r then
    tryPass cfg (do
      let p ← (pySplit r "Motor poles set to:")[1]?
      let n ← pyInt (pyStripS p)
      some { cfg with motor_poles := n })
  else some cfg

/-- The display-label substrings that route a response to
`parse_config_display`. -/
def displayKeywords : List String :=
  ["Throttle Inverted:", "Motor Pulley Teeth:", "Wheel Pulley Teeth:",
   "Wheel Diameter:", "Motor Poles:", "BLE Connected:"]

/-- Final dispatch of `parse_config_response` to the display parser. -/
def displayStep (r : String) (cfg : Config) : Option Config :=
  if pyContains "Current Configuration" r || pyContains "Configuration:" r then
    some (parse_config_display cfg r)
  else if displayKeywords.any (fun k => pyContains k r) then
    some (parse_config_display cfg r)
  else some cfg

/-- The body of `parse_config_response` (inside its outer `try`), with every
block applied in source order.  A `none` result would model an exception
reaching the outer handler. -/
def parse_config_body (r : String) (cfg : Config) : Option Config :=
  throttleStep r cfg >>= levelStep r >>= kpStep r >>= kiStep r >>= kdStep r >>=
    outputMaxStep r >>= pidBlockStep r >>= motorPulleyStep r >>= wheelPulleyStep r >>=
    wheelDiameterStep r >>= motorPolesStep r >>= displayStep r

/-- `parse_config_response`: the outer `try/except` logs and keeps the state
reached so far; since the body never raises (`parse_config_response_total`),
the fallback branch is unreachable. -/
def parse_config_response (cfg : Config) (r : String) : Config :=
  (parse_config_body r cfg).getD cfg

/-- `process_response`: clean, and parse only when something survives
(the configuration effect of the function; logging is out of scope). -/
def process_response (cfg : Config) (response : String) : Config :=
  match clean_response response with
  | some t => parse_config_response cfg t
  | none => cfg

/-! ### Command dispatch

The commands are modelled as data; serialisation to the wire string plus
newline is out of scope.  Each handler returns the (possibly updated)
configuration and the command sent, `none` when the dispatch is rejected
locally (not connected, invalid value) and nothing is written to the port. -/

/-- The command strings sent by the dispatch handlers. -/
inductive Command where
  | invertThrottle
  | levelAssistant
  | resetOdometer
  | setMotorPulley (teeth : Int)
  | setWheelPulley (teeth : Int)
  | setWheelSize (size : Int)
  | setMotorPoles (poles : Int)
  | getConfig
  | calibrateThrottle
  | getCalibration
  | setPidKp (v : Rat)
  | setPidKi (v : Rat)
  | setPidKd (v : Rat)
  | setPidOutputMax (v : Rat)
  | getPidParams
  | helpCmd
deriving DecidableEq

/-- `toggle_throttle`. -/
def toggle_throttle (connected : Bool) (cfg : Config) : Config × Option Command :=
  if !connected then (cfg, none) else (cfg, some Command.invertThrottle)

/-- `toggle_level_assistant`. -/
def toggle_level_assistant (connected : Bool) (cfg : Config) : Config × Option Command :=
  if !connected then (cfg, none) else (cfg, some Command.levelAssistant)

/-- `set_motor_pulley` (the entry value already read as an integer). -/
def set_motor_pulley (connected : Bool) (teeth : Int) (cfg : Config) :
    Config × Option Command :=
  if !connected then (cfg, none)
  else if teeth ≤ 0 ∨ teeth > 255 then (cfg, none)
  else (cfg, some (Command.setMotorPulley teeth))

/-- `set_wheel_pulley`. -/
def set_wheel_pulley (connected : Bool) (teeth : Int) (cfg : Config) :
    Config × Option Command :=
  if !connected then (cfg, none)
  else if teeth ≤ 0 ∨ teeth > 255 then (cfg, none)
  else (cfg, some (Command.setWheelPulley teeth))

/-- `set_wheel_size`. -/
def set_wheel_size (connected : Bool) (size : Int) (cfg : Config) :
    Config × Option Command :=
  if !connected then (cfg, none)
  else if size ≤ 0 ∨ size > 255 then (cfg, none)
  else (cfg, some (Command.setWheelSize size))

/-- `set_motor_poles`. -/
def set_motor_poles (connected : Bool) (poles : Int) (cfg : Config) :
    Config × Option Command :=
  if !connected then (cfg, none)
  else if poles ≤ 0 ∨ poles > 255 then (cfg, none)
  else (cfg, some (Command.setMotorPoles poles))

/-- `set_pid_kp`: note the local write to `config['pid_kp']` before sending. -/
def set_pid_kp (connected : Bool) (kp : Rat) (cfg : Config) :
    Config × Option Command :=
  if !connected then (cfg, none)
  else if kp < 0 ∨ kp > 10 then (cfg, none)
  else ({ cfg with pid_kp := kp }, some (Command.setPidKp kp))

/-- `set_pid_ki`: local write before sending. -/
def set_pid_ki (connected : Bool) (ki : Rat) (cfg : Config) :
    Config × Option Command :=
  if !connected then (cfg, none)
  else if ki < 0 ∨ ki > 2 then (cfg, none)
  else ({ cfg with pid_ki := ki }, some (Command.setPidKi ki))

/-- `set_pid_kd`: local write before sending. -/
def set_pid_kd (connected : Bool) (kd : Rat) (cfg : Config) :
    Config × Option Command :=
  if !connected then (cfg, none)
  else if kd < 0 ∨ kd > 1 then (cfg, none)
  else ({ cfg with pid_kd := kd }, some (Command.setPidKd kd))

/-- `set_pid_output_max`: local write before sending. -/
def set_pid_output_max (connected : Bool) (outputMax : Rat) (cfg : Config) :
    Config × Option Command :=
  if !connected then (cfg, none)
  else if outputMax < 10 ∨ outputMax > 100 then (cfg, none)
  else ({ cfg with pid_output_max := outputMax }, some (Command.setPidOutputMax outputMax))

/-- `get_config`. -/
def get_config (connected : Bool) (cfg : Config) : Config × Option Command :=
  if !connected then (cfg, none) else (cfg, some Command.getConfig)

/-- `get_pid_params`. -/
def get_pid_params (connected : Bool) (cfg : Config) : Config × Option Command :=
  if !connected then (cfg, none) else (cfg, some Command.getPidParams)

/-- `get_calibration`. -/
def get_calibration (connected : Bool) (cfg : Config) : Config × Option Command :=
  if !connected then (cfg, none) else (cfg, some Command.getCalibration)

/-! ### Lemmas about the ANSI stripper -/

theorem csiTail_length {l r : List Char} (h : csiTail l = some r) : r.length < l.length := by
  unfold csiTail at h
  rcases hd : (l.dropWhile isParamByte).dropWhile isInterByte with _ | ⟨c, rest⟩ <;>
    rw [hd] at h
  · exact absurd h (by simp)
  · have hlen : rest.length + 1 ≤ l.length := by
      have h1 : (c :: rest).length ≤ (l.dropWhile isParamByte).length := by
        rw [← hd]; exact (List.dropWhile_suffix _).sublist.length_le
      have h2 : (l.dropWhile isParamByte).length ≤ l.length :=
        (List.dropWhile_suffix _).sublist.length_le
      simpa using le_trans h1 h2
    dsimp only at h
    by_cases hf : isFinalByte c
    · rw [if_pos hf] at h
      cases h
      omega
    · exact absurd h (by rw [if_neg hf]; simp)

theorem ansiMatch_length {l r : List Char} (h : ansiMatch l = some r) : r.length < l.length := by
  cases l with
  | nil => exact absurd h (by simp [ansiMatch])
  | cons c rest =>
    unfold ansiMatch at h
    dsimp only at h
    by_cases h1 : isEscSingleByte c
    · rw [if_pos h1] at h
      cases h
      simp
    · rw [if_neg h1] at h
      by_cases h2 : c = '['
      · rw [if_pos h2] at h
        exact Nat.lt_trans (csiTail_length h) (by simp)
      · rw [if_neg h2] at h
        exact absurd h (by simp)

theorem ansiSubF_eq : ∀ (f g : Nat) (l : List Char), l.length ≤ f → l.length ≤ g →
    ansiSubF f l = ansiSubF g l := by
  intro f
  induction f with
  | zero =>
    intro g l hf _
    have : l = [] := List.eq_nil_of_length_eq_zero (Nat.le_zero.mp hf)
    subst this
    cases g <;> rfl
  | succ f ih =>
    intro g l hf hg
    cases l with
    | nil => cases g <;> rfl
    | cons c rest =>
      cases g with
      | zero => simp at hg
      | succ g =>
        simp only [List.length_cons, Nat.succ_le_succ_iff] at hf hg
        by_cases hc : c = escChar
        · rcases hm : ansiMatch rest with _ | r2
          · simp only [ansiSubF, if_pos hc, hm]
            rw [ih g rest hf hg]
          · have hr2 : r2.length ≤ rest.length := Nat.le_of_lt (ansiMatch_length hm)
            simp only [ansiSubF, if_pos hc, hm]
            exact ih g r2 (le_trans hr2 hf) (le_trans hr2 hg)
        · simp only [ansiSubF, if_neg hc]
          rw [ih g rest hf hg]

theorem ansiSub_cons_esc_match {rest r2 : List Char} (h : ansiMatch rest = some r2) :
    ansiSub (escChar :: rest) = ansiSub r2 := by
  show ansiSubF (rest.length + 1) (escChar :: rest) = _
  simp only [ansiSubF, if_pos rfl, h]
  exact ansiSubF_eq rest.length r2.length r2 (Nat.le_of_lt (ansiMatch_length h)) le_rfl

theorem ansiSub_cons_esc_none {rest : List Char} (h : ansiMatch rest = none) :
    ansiSub (escChar :: rest) = escChar :: ansiSub rest := by
  show ansiSubF (rest.length + 1) (escChar :: rest) = _
  simp only [ansiSubF, if_pos rfl, h]
  rfl

theorem ansiSub_cons_ne {c : Char} {rest : List Char} (h : c ≠ escChar) :
    ansiSub (c :: rest) = c :: ansiSub rest := by
  show ansiSubF (rest.length + 1) (c :: rest) = _
  simp only [ansiSubF, if_neg h]
  rfl

theorem ansiSub_no_esc : ∀ {l : List Char}, escChar ∉ l → ansiSub l = l := by
  intro l
  induction l with
  | nil => intro; rfl
  | cons c rest ih =>
    intro h
    have hc : c ≠ escChar := fun e => h (e ▸ List.mem_cons_self c rest)
    have hrest : escChar ∉ rest := fun m => h (List.mem_cons_of_mem _ m)
    rw [ansiSub_cons_ne hc, ih hrest]

theorem csiTail_append_esc (r σ : List Char) :
    csiTail (r ++ escChar :: σ) = (csiTail r).map (· ++ escChar :: σ) := by
  have hp : isParamByte escChar = false := by decide
  have hi : isInterByte escChar = false := by decide
  have hf : isFinalByte escChar = false := by decide
  unfold csiTail
  rw [List.dropWhile_append]
  by_cases h1 : (r.dropWhile isParamByte).isEmpty
  · have h1e : r.dropWhile isParamByte = [] := by simpa using h1
    rw [if_pos h1, h1e]
    simp [List.dropWhile_cons, hp, hi, hf]
  · have h1e : r.dropWhile isParamByte ≠ [] := by simpa using h1
    rw [if_neg h1, List.dropWhile_append]
    by_cases h2 : ((r.dropWhile isParamByte).dropWhile isInterByte).isEmpty
    · have h2e : (r.dropWhile isParamByte).dropWhile isInterByte = [] := by simpa using h2
      rw [if_pos h2, h2e]
      simp [List.dropWhile_cons, hi, hf]
    · have h2e : (r.dropWhile isParamByte).dropWhile isInterByte ≠ [] := by simpa using h2
      rw [if_neg h2]
      rcases hd : (r.dropWhile isParamByte).dropWhile isInterByte with _ | ⟨e, es⟩
      · exact absurd hd h2e
      · by_cases hfe : isFinalByte e
        · simp [hfe]
        · simp [hfe]

theorem ansiMatch_append_esc (r σ : List Char) :
    ansiMatch (r ++ escChar :: σ) = (ansiMatch r).map (· ++ escChar :: σ) := by
  cases r with
  | nil =>
    have h1 : isEscSingleByte escChar = false := by decide
    simp [ansiMatch, h1, show escChar ≠ '[' by decide]
  | cons c rest =>
    simp only [List.cons_append]
    unfold ansiMatch
    dsimp only
    by_cases h1 : isEscSingleByte c
    · simp [h1]
    · rw [if_neg h1, if_neg h1]
      by_cases h2 : c = '['
      · rw [if_pos h2, if_pos h2]
        exact csiTail_append_esc rest σ
      · simp [h2]

theorem ansiSub_append_resetSuf_bounded :
    ∀ (n : Nat) (l : List Char), l.length ≤ n → ansiSub (l ++ resetSuf) = ansiSub l := by
  intro n
  induction n with
  | zero =>
    intro l h
    have : l = [] := List.eq_nil_of_length_eq_zero (Nat.le_zero.mp h)
    subst this
    decide
  | succ n ih =>
    intro l hl
    cases l with
    | nil => decide
    | cons c rest =>
      simp only [List.length_cons, Nat.succ_le_succ_iff] at hl
      by_cases hc : c = escChar
      · subst hc
        rw [List.cons_append]
        have hm := ansiMatch_append_esc rest ['[', '0', 'm']
        rcases hmr : ansiMatch rest with _ | r2
        · rw [hmr] at hm
          rw [ansiSub_cons_esc_none (by exact hm), ansiSub_cons_esc_none hmr, ih rest hl]
        · rw [hmr] at hm
          rw [ansiSub_cons_esc_match (by exact hm), ansiSub_cons_esc_match hmr]
          exact ih r2 (le_trans (Nat.le_of_lt (ansiMatch_length hmr)) hl)
      · rw [List.cons_append, ansiSub_cons_ne hc, ansiSub_cons_ne hc, ih rest hl]

theorem ansiSub_append_resetSuf (l : List Char) : ansiSub (l ++ resetSuf) = ansiSub l :=
  ansiSub_append_resetSuf_bounded l.length l le_rfl

theorem ansiSub_greenPre (l : List Char) : ansiSub (greenPre ++ l) = ansiSub l := by
  have hm : ansiMatch ('[' :: '3' :: '2' :: 'm' :: l) = some l := rfl
  exact ansiSub_cons_esc_match hm

/-! ### Lemmas about stripping, splitting and joining -/

theorem dropWhile_pyStrip (l : List Char) : (pyStrip l).dropWhile pyWs = pyStrip l := by
  unfold pyStrip
  rcases h : List.rdropWhile pyWs (l.dropWhile pyWs) with _ | ⟨c, t⟩
  · rfl
  · obtain ⟨t2, ht2⟩ := h ▸ List.rdropWhile_prefix pyWs (l.dropWhile pyWs)
    have h0 := List.head?_dropWhile_not pyWs l
    rw [← ht2] at h0
    simp only [List.cons_append, List.head?_cons] at h0
    rw [List.dropWhile_cons, h0]
    simp

theorem pyStrip_idem (l : List Char) : pyStrip (pyStrip l) = pyStrip l := by
  show List.rdropWhile pyWs ((pyStrip l).dropWhile pyWs) = pyStrip l
  rw [dropWhile_pyStrip]
  show List.rdropWhile pyWs (List.rdropWhile pyWs (l.dropWhile pyWs)) = _
  rw [List.rdropWhile_idempotent]
  rfl

theorem mem_pyStrip {c : Char} {l : List Char} (h : c ∈ pyStrip l) : c ∈ l := by
  have hpre := List.rdropWhile_prefix pyWs (l.dropWhile pyWs)
  have h1 := hpre.sublist.subset h
  exact (List.dropWhile_suffix pyWs).sublist.subset h1

theorem splitNl_ne_nil : ∀ l : List Char, splitNl l ≠ [] := by
  intro l
  induction l with
  | nil => simp [splitNl]
  | cons c t ih =>
    by_cases hc : c = '\n'
    · simp [splitNl, hc]
    · rcases hs : splitNl t with _ | ⟨x, xs⟩
      · simp [splitNl, hc, hs]
      · simp [splitNl, hc, hs]

theorem noNl_of_mem_splitNl : ∀ {l x : List Char}, x ∈ splitNl l → '\n' ∉ x := by
  intro l
  induction l with
  | nil =>
    intro x hx
    simp only [splitNl, List.mem_singleton] at hx
    simp [hx]
  | cons c t ih =>
    intro x hx
    by_cases hc : c = '\n'
    · rw [splitNl, if_pos hc] at hx
      rcases List.mem_cons.mp hx with h | h
      · simp [h]
      · exact ih h
    · rw [splitNl, if_neg hc] at hx
      rcases hs : splitNl t with _ | ⟨y, ys⟩
      · exact absurd hs (splitNl_ne_nil t)
      · rw [hs] at hx
        rcases List.mem_cons.mp hx with h | h
        · subst h
          intro hmem
          rcases List.mem_cons.mp hmem with h | h
          · exact hc h.symm
          · exact ih (hs ▸ List.mem_cons_self y ys) h
        · exact ih (hs ▸ List.mem_cons_of_mem y h)

theorem splitNl_no_nl : ∀ {l : List Char}, '\n' ∉ l → splitNl l = [l] := by
  intro l
  induction l with
  | nil => intro; rfl
  | cons c t ih =>
    intro h
    have hc : c ≠ '\n' := fun e => h (by simp [e])
    have ht : '\n' ∉ t := fun m => h (List.mem_cons_of_mem _ m)
    rw [splitNl, if_neg hc, ih ht]

theorem splitNl_append_nl (a t : List Char) (h : '\n' ∉ a) :
    splitNl (a ++ '\n' :: t) = a :: splitNl t := by
  induction a with
  | nil => simp [splitNl]
  | cons c a ih =>
    have hc : c ≠ '\n' := fun e => h (by simp [e])
    have ha : '\n' ∉ a := fun m => h (List.mem_cons_of_mem _ m)
    rw [List.cons_append, splitNl, if_neg hc, ih ha]

theorem splitNl_joinNl : ∀ {L : List (List Char)}, L ≠ [] → (∀ x ∈ L, '\n' ∉ x) →
    splitNl (joinNl L) = L := by
  intro L
  induction L with
  | nil => intro h; exact absurd rfl h
  | cons x t ih =>
    intro _ hx
    cases t with
    | nil => exact splitNl_no_nl (hx x (by simp))
    | cons y t =>
      show splitNl (x ++ '\n' :: joinNl (y :: t)) = _
      rw [splitNl_append_nl _ _ (hx x (by simp))]
      rw [ih (by simp) (fun z hz => hx z (List.mem_cons_of_mem x hz))]

theorem joinNl_ne_nil : ∀ {L : List (List Char)}, L ≠ [] → (∀ x ∈ L, x ≠ []) →
    joinNl L ≠ [] := by
  intro L
  induction L with
  | nil => intro h; exact absurd rfl h
  | cons x t _ =>
    intro _ hx
    cases t with
    | nil => exact hx x (by simp)
    | cons y t => simp [joinNl]

theorem filterMap_eq_self {α : Type} {f : α → Option α} :
    ∀ {L : List α}, (∀ a ∈ L, f a = some a) → L.filterMap f = L := by
  intro L
  induction L with
  | nil => intro; rfl
  | cons a t ih =>
    intro h
    rw [List.filterMap_cons, h a (by simp), ih (fun x hx => h x (List.mem_cons_of_mem a hx))]

/-! ### Lemmas about the cleaner -/

theorem filterLine_eq_some {l m : List Char} (h : filterLine l = some m) :
    m = pyStrip l ∧ m ≠ [] ∧
      (skipMarkers.any fun p => isSubstring p.data m) = false ∧ m ≠ ['>'] := by
  unfold filterLine at h
  dsimp only at h
  split_ifs at h with h1 h2 h3
  cases h
  refine ⟨rfl, ?_, ?_, ?_⟩
  · simpa using h1
  · simpa using h2
  · intro e
    exact h3 (by simp [e])

theorem filterLine_fixed {l m : List Char} (h : filterLine l = some m) :
    filterLine m = some m := by
  obtain ⟨hm, hne, hmark, hgt⟩ := filterLine_eq_some h
  have hs : pyStrip m = m := by rw [hm, pyStrip_idem]
  unfold filterLine
  rw [hs]
  rw [if_neg (by simpa using hne), if_neg (by simpa using hmark),
    if_neg (by simp [hne, hgt])]

theorem filterLine_eq_none_iff {l : List Char} :
    filterLine l = none ↔
      (pyStrip l = [] ∨
        (skipMarkers.any fun p => isSubstring p.data (pyStrip l)) = true ∨
        pyStrip l = ['>']) := by
  unfold filterLine
  dsimp only
  split_ifs with h1 h2 h3
  · simp only [true_iff]
    exact Or.inl (by simpa using h1)
  · simp only [true_iff]
    exact Or.inr (Or.inl h2)
  · simp only [true_iff]
    have h3e : pyStrip l = ['>'] ∨ pyStrip l = [] := by simpa using h3
    rcases h3e with h | h
    · exact Or.inr (Or.inr h)
    · exact Or.inl h
  · simp only [reduceCtorEq, false_iff]
    rintro (h | h | h)
    · exact h1 (by simp [h])
    · exact h2 h
    · exact h3 (by simp [h])

theorem clean_response_eq_some {s : String} {t : String} (h : clean_response s = some t) :
    (splitNl (ansiSub s.data)).filterMap filterLine ≠ [] ∧
      t.data = joinNl ((splitNl (ansiSub s.data)).filterMap filterLine) := by
  unfold clean_response at h
  dsimp only at h
  split_ifs at h with h1
  refine ⟨by simpa using h1, ?_⟩
  cases h
  rfl

/-! ### Totality of the parser body -/

theorem bind_isSome_of {o : Option Config} {f : Config → Option Config}
    (h1 : o.isSome) (h2 : ∀ c, (f c).isSome) : (o >>= f).isSome := by
  obtain ⟨c, hc⟩ := Option.isSome_iff_exists.mp h1
  rw [hc]
  exact h2 c

theorem tryPass_isSome (prior : Config) (body : Option Config) :
    (tryPass prior body).isSome := rfl

theorem throttleStep_isSome (r : String) (cfg : Config) : (throttleStep r cfg).isSome := by
  unfold throttleStep
  split_ifs <;> rfl

theorem levelStep_isSome (r : String) (cfg : Config) : (levelStep r cfg).isSome := by
  unfold levelStep
  split_ifs <;> rfl

theorem kpStep_isSome (r : String) (cfg : Config) : (kpStep r cfg).isSome := by
  unfold kpStep
  split_ifs <;> rfl

theorem kiStep_isSome (r : String) (cfg : Config) : (kiStep r cfg).isSome := by
  unfold kiStep
  split_ifs <;> rfl

theorem kdStep_isSome (r : String) (cfg : Config) : (kdStep r cfg).isSome := by
  unfold kdStep
  split_ifs <;> rfl

theorem outputMaxStep_isSome (r : String) (cfg : Config) : (outputMaxStep r cfg).isSome := by
  unfold outputMaxStep
  split_ifs <;> rfl

theorem pidBlockStep_isSome (r : String) (cfg : Config) : (pidBlockStep r cfg).isSome := by
  unfold pidBlockStep
  split_ifs <;> rfl

theorem motorPulleyStep_isSome (r : String) (cfg : Config) : (motorPulleyStep r cfg).isSome := by
  unfold motorPulleyStep
  split_ifs <;> rfl

theorem wheelPulleyStep_isSome (r : String) (cfg : Config) : (wheelPulleyStep r cfg).isSome := by
  unfold wheelPulleyStep
  split_ifs <;> rfl

theorem wheelDiameterStep_isSome (r : String) (cfg : Config) : (wheelDiameterStep r cfg).isSome := by
  unfold wheelDiameterStep
  split_ifs <;> rfl

theorem motorPolesStep_isSome (r : String) (cfg : Config) : (motorPolesStep r cfg).isSome := by
  unfold motorPolesStep
  split_ifs <;> rfl

theorem displayStep_isSome (r : String) (cfg : Config) : (displayStep r cfg).isSome := by
  unfold displayStep
  split_ifs <;> rfl

/-! ### Claim theorems -/

/-- Claim C1, counterexample: the claim says the last throttle-inversion line
of a chunk wins; in the chunk below the last line says DISABLED, so the claim
predicts `invert_throttle = false`, yet the code yields `true` because the
ENABLED substring check is an `if` tested before the DISABLED `elif` and both
substrings are present in the chunk. -/
theorem throttle_inversion_not_last_wins :
    (parse_config_response defaultConfig
      "Throttle inversion: ENABLED\nThrottle inversion: DISABLED").invert_throttle = true := by
  decide

/-- Claim C1, amended: a chunk containing only `Throttle inversion: ENABLED`
sets `invert_throttle` to true and one containing only
`Throttle inversion: DISABLED` sets it to false, but when one chunk contains
both such lines — in either order — ENABLED takes precedence (the containment
check for ENABLED is evaluated first), not the last line. -/
theorem throttle_inversion_enabled_precedence (cfg : Config) :
    (parse_config_response cfg "Throttle inversion: ENABLED").invert_throttle = true ∧
    (parse_config_response cfg "Throttle inversion: DISABLED").invert_throttle = false ∧
    (parse_config_response cfg
      "Throttle inversion: ENABLED\nThrottle inversion: DISABLED").invert_throttle = true ∧
    (parse_config_response cfg
      "Throttle inversion: DISABLED\nThrottle inversion: ENABLED").invert_throttle = true :=
  ⟨rfl, rfl, rfl, rfl⟩

/-- Claim C2, counterexample: `"hello"` contains no recognized marker
substring, yet the cleaner returns it unchanged rather than the absence the
claim demands — markerless lines pass through the filter. -/
theorem clean_response_markerless_not_none :
    clean_response "hello" = some "hello" := by
  decide

/-- Claim C2, amended: the cleaner returns absence exactly when every line of
the ANSI-stripped input is dropped by the filter, i.e. when each line trims to
the empty string, contains a verbose-log marker, or is the lone prompt
marker. -/
theorem clean_response_none_iff (s : String) :
    clean_response s = none ↔
      ∀ l ∈ splitNl (ansiSub s.data),
        pyStrip l = [] ∨
        (skipMarkers.any fun p => isSubstring p.data (pyStrip l)) = true ∨
        pyStrip l = ['>'] := by
  unfold clean_response
  dsimp only
  split_ifs with h
  · have h' : List.filterMap filterLine (splitNl (ansiSub s.data)) = [] := by simpa using h
    simp only [List.filterMap_eq_nil_iff] at h'
    exact iff_of_true rfl fun l hl => filterLine_eq_none_iff.mp (h' l hl)
  · have h' : ¬List.filterMap filterLine (splitNl (ansiSub s.data)) = [] := by simpa using h
    refine iff_of_false (by simp) fun hall => ?_
    exact h' (List.filterMap_eq_nil_iff.mpr fun l hl => filterLine_eq_none_iff.mpr (hall l hl))

/-- Claim C6, counterexample: the line `Motor poles set to: 7` parses on its
own, but adding a second line with an unparseable payload makes the motor-poles
parse fail as well (the numeric payload of a `set to:` marker extends to the
end of the chunk), leaving `motor_poles` at its default 14 where the claim
demands 7 — one line does block another. -/
theorem set_to_marker_not_isolated :
    (parse_config_response defaultConfig "Motor poles set to: 7").motor_poles = 7 ∧
    (parse_config_response defaultConfig
      "Motor poles set to: 7\nMotor pulley teeth set to: abc").motor_poles = 14 := by
  exact ⟨by decide, by decide⟩

/-- Claim C6, amended: an unparseable payload leaves the corresponding field
at its prior value and other marker checks still run.  In the display parser
failures are isolated per line (a failing line does not block a later line);
for the `set to:` markers the payload is everything after the marker up to the
end of the chunk, so such a field is applied only when the remainder parses as
a whole — an earlier `set to:` line followed by any further text fails, while
a failing line before a `set to:` marker does not block it. -/
theorem parse_failure_effects (cfg : Config) :
    parse_config_response cfg "PID Kp set to: abc" = cfg ∧
    parse_config_display cfg "Motor Pulley Teeth: abc\nWheel Pulley Teeth: 34" =
      { cfg with wheel_pulley := 34 } ∧
    parse_config_response cfg "Motor poles set to: abc\nMotor pulley teeth set to: 16" =
      { cfg with motor_pulley := 16 } :=
  ⟨rfl, rfl, rfl⟩

/-- Claim C7: the body of `parse_config_response` never lets an exception
reach the outer handler — every raising operation is guarded by an inner
`try/except` — so the function terminates normally on every input, and its
result is the configuration produced by the body. -/
theorem parse_config_response_total (cfg : Config) (r : String) :
    ∃ c, parse_config_body r cfg = some c ∧ parse_config_response cfg r = c := by
  have hb : (parse_config_body r cfg).isSome := by
    unfold parse_config_body
    exact bind_isSome_of (bind_isSome_of (bind_isSome_of (bind_isSome_of (bind_isSome_of
      (bind_isSome_of (bind_isSome_of (bind_isSome_of (bind_isSome_of (bind_isSome_of
      (bind_isSome_of (throttleStep_isSome r cfg) (levelStep_isSome r)) (kpStep_isSome r))
      (kiStep_isSome r)) (kdStep_isSome r)) (outputMaxStep_isSome r)) (pidBlockStep_isSome r))
      (motorPulleyStep_isSome r)) (wheelPulleyStep_isSome r)) (wheelDiameterStep_isSome r))
      (motorPolesStep_isSome r)) (displayStep_isSome r)
  obtain ⟨c, hc⟩ := Option.isSome_iff_exists.mp hb
  exact ⟨c, hc, by simp [parse_config_response, hc]⟩

/-- Claim C9, counterexample: the display parser matches keys by exact,
case-sensitive comparison against the two listed spellings, so the all-caps
key `THROTTLE INVERTED` is ignored and `invert_throttle` stays false where the
claim demands a case-insensitive match setting it to true. -/
theorem display_key_not_case_insensitive :
    (parse_config_display defaultConfig "THROTTLE INVERTED: yes").invert_throttle = false := by
  decide

/-- Claim C9, amended: the display parser dispatches each `key: value` line by
exact, case-sensitive comparison of the trimmed key against the two listed
spellings of each label; keys in any other letter case are ignored.  Only the
value side is compared after lowercasing. -/
theorem display_key_exact_match (cfg : Config) :
    (parse_config_display cfg "Throttle Inverted: yes").invert_throttle = true ∧
    (parse_config_display cfg "Throttle inversion: enabled").invert_throttle = true ∧
    (parse_config_display cfg "Throttle Inverted: YES").invert_throttle = true ∧
    parse_config_display cfg "THROTTLE INVERTED: yes" = cfg ∧
    parse_config_display cfg "throttle inverted: yes" = cfg ∧
    (parse_config_display cfg "Motor Pulley Teeth: 21").motor_pulley = 21 ∧
    parse_config_display cfg "MOTOR PULLEY TEETH: 21" = cfg :=
  ⟨rfl, rfl, rfl, rfl, rfl, rfl, rfl⟩

/-- Claim C3, counterexample: dispatching `set_pid_kp` with a valid value
while connected writes the value into the configuration before any device
echo is parsed — the PID setters perform an optimistic local update, so the
dispatch does not leave every field unchanged. -/
theorem set_pid_kp_mutates_config :
    (set_pid_kp true 1 defaultConfig).1.pid_kp ≠ defaultConfig.pid_kp := by
  have h : set_pid_kp true 1 defaultConfig =
      ({ defaultConfig with pid_kp := 1 }, some (Command.setPidKp 1)) := by
    unfold set_pid_kp
    rw [if_neg (by simp), if_neg (by norm_num)]
  rw [h]
  show (1 : Rat) ≠ defaultConfig.pid_kp
  norm_num [defaultConfig]

/-- Claim C3, amended: the toggle, integer-setter and getter dispatches leave
every configuration field unchanged whether they send or reject, but each of
the four PID setters, when connected and given an in-range value, writes that
value into its configuration field locally before sending the command. -/
theorem dispatch_config_effects (connected : Bool) (t : Int) (v : Rat) (cfg : Config) :
    (toggle_throttle connected cfg).1 = cfg ∧
    (toggle_level_assistant connected cfg).1 = cfg ∧
    (set_motor_pulley connected t cfg).1 = cfg ∧
    (set_wheel_pulley connected t cfg).1 = cfg ∧
    (set_wheel_size connected t cfg).1 = cfg ∧
    (set_motor_poles connected t cfg).1 = cfg ∧
    (get_config connected cfg).1 = cfg ∧
    (get_pid_params connected cfg).1 = cfg ∧
    (get_calibration connected cfg).1 = cfg ∧
    (set_pid_kp connected v cfg).1 =
      (if connected = true ∧ 0 ≤ v ∧ v ≤ 10 then { cfg with pid_kp := v } else cfg) ∧
    (set_pid_ki connected v cfg).1 =
      (if connected = true ∧ 0 ≤ v ∧ v ≤ 2 then { cfg with pid_ki := v } else cfg) ∧
    (set_pid_kd connected v cfg).1 =
      (if connected = true ∧ 0 ≤ v ∧ v ≤ 1 then { cfg with pid_kd := v } else cfg) ∧
    (set_pid_output_max connected v cfg).1 =
      (if connected = true ∧ 10 ≤ v ∧ v ≤ 100 then { cfg with pid_output_max := v }
       else cfg) := by
  refine ⟨?_, ?_, ?_, ?_, ?_, ?_, ?_, ?_, ?_, ?_, ?_, ?_, ?_⟩
  · unfold toggle_throttle
    split_ifs <;> rfl
  · unfold toggle_level_assistant
    split_ifs <;> rfl
  · unfold set_motor_pulley
    split_ifs <;> rfl
  · unfold set_wheel_pulley
    split_ifs <;> rfl
  · unfold set_wheel_size
    split_ifs <;> rfl
  · unfold set_motor_poles
    split_ifs <;> rfl
  · unfold get_config
    split_ifs <;> rfl
  · unfold get_pid_params
    split_ifs <;> rfl
  · unfold get_calibration
    split_ifs <;> rfl
  · unfold set_pid_kp
    cases connected
    · simp
    · rw [if_neg (by simp)]
      by_cases h : v < 0 ∨ v > 10
      · rw [if_pos h, if_neg]
        rintro ⟨-, hl, hr⟩
        rcases h with h | h
        · exact absurd hl (not_le.mpr h)
        · exact absurd hr (not_le.mpr h)
      · have h2 := h
        push_neg at h2
        rw [if_neg h, if_pos ⟨rfl, h2.1, h2.2⟩]
  · unfold set_pid_ki
    cases connected
    · simp
    · rw [if_neg (by simp)]
      by_cases h : v < 0 ∨ v > 2
      · rw [if_pos h, if_neg]
        rintro ⟨-, hl, hr⟩
        rcases h with h | h
        · exact absurd hl (not_le.mpr h)
        · exact absurd hr (not_le.mpr h)
      · have h2 := h
        push_neg at h2
        rw [if_neg h, if_pos ⟨rfl, h2.1, h2.2⟩]
  · unfold set_pid_kd
    cases connected
    · simp
    · rw [if_neg (by simp)]
      by_cases h : v < 0 ∨ v > 1
      · rw [if_pos h, if_neg]
        rintro ⟨-, hl, hr⟩
        rcases h with h | h
        · exact absurd hl (not_le.mpr h)
        · exact absurd hr (not_le.mpr h)
      · have h2 := h
        push_neg at h2
        rw [if_neg h, if_pos ⟨rfl, h2.1, h2.2⟩]
  · unfold set_pid_output_max
    cases connected
    · simp
    · rw [if_neg (by simp)]
      by_cases h : v < 10 ∨ v > 100
      · rw [if_pos h, if_neg]
        rintro ⟨-, hl, hr⟩
        rcases h with h | h
        · exact absurd hl (not_le.mpr h)
        · exact absurd hr (not_le.mpr h)
      · have h2 := h
        push_neg at h2
        rw [if_neg h, if_pos ⟨rfl, h2.1, h2.2⟩]

/-- Claim C4, counterexample: cleaning can leave a fragment that only becomes
a complete ANSI escape after the first removal pass, so a second cleaning
changes the result: the input below cleans to a non-absent string containing
a dangling ESC, and cleaning that output again yields absence. -/
theorem clean_response_not_idempotent :
    clean_response "\x1B\x1B[31mX" = some "\x1BX" ∧
    clean_response "\x1BX" = none :=
  ⟨by decide, by decide⟩

/-- Claim C4, amended: the cleaner is idempotent on every output that carries
no residual ESC character — if cleaning yields a text containing no `\x1B`,
cleaning that text again returns it unchanged.  (Residual ESC bytes can
survive only out of overlapping or truncated escape sequences, as in the
counterexample.) -/
theorem clean_response_idempotent_of_no_esc (s t : String)
    (h : clean_response s = some t) (hesc : escChar ∉ t.data) :
    clean_response t = some t := by
  obtain ⟨hne, hdata⟩ := clean_response_eq_some h
  have hnl : ∀ x ∈ (splitNl (ansiSub s.data)).filterMap filterLine, '\n' ∉ x := by
    intro x hx hmem
    obtain ⟨a, ha, hfa⟩ := List.mem_filterMap.mp hx
    obtain ⟨hm, -, -, -⟩ := filterLine_eq_some hfa
    exact noNl_of_mem_splitNl ha (mem_pyStrip (hm ▸ hmem))
  have hfix : ∀ x ∈ (splitNl (ansiSub s.data)).filterMap filterLine,
      filterLine x = some x := by
    intro x hx
    obtain ⟨a, ha, hfa⟩ := List.mem_filterMap.mp hx
    exact filterLine_fixed hfa
  unfold clean_response
  dsimp only
  rw [ansiSub_no_esc hesc, hdata, splitNl_joinNl hne hnl, filterMap_eq_self hfix]
  rw [if_neg (by simpa using hne), ← hdata]

/-- Witness for `clean_response_idempotent_of_no_esc` at a concrete input. -/
theorem clean_response_idempotent_witness :
    clean_response "ab\nX" = some "ab\nX" :=
  clean_response_idempotent_of_no_esc "ab\n\nX" "ab\nX" (by decide) (by decide)

/-- Claim C5: wrapping a chunk in the green-colour ANSI escape and the reset
escape does not change behaviour: the concrete wrapped level-assistant line
cleans to its unwrapped text, and for every input string the configuration
produced by cleaning then parsing the wrapped form equals that of the
unwrapped form. -/
theorem ansi_wrap_invariance :
    clean_response "\x1B[32mLevel assistant: ENABLED\x1B[0m" =
      some "Level assistant: ENABLED" ∧
    ∀ (cfg : Config) (s : String),
      process_response cfg ("\x1B[32m" ++ s ++ "\x1B[0m") = process_response cfg s := by
  refine ⟨by decide, fun cfg s => ?_⟩
  have h1 : ("\x1B[32m" : String).data = greenPre := by decide
  have h2 : ("\x1B[0m" : String).data = resetSuf := by decide
  have hdata : ("\x1B[32m" ++ s ++ "\x1B[0m").data = (greenPre ++ s.data) ++ resetSuf := by
    rw [String.data_append, String.data_append, h1, h2]
  have hclean : clean_response ("\x1B[32m" ++ s ++ "\x1B[0m") = clean_response s := by
    unfold clean_response
    rw [hdata, ansiSub_append_resetSuf, ansiSub_greenPre]
  unfold process_response
  rw [hclean]

/-- Claim C8: pre-send validation of the four integer dispatches — any value
in `[1, 255]` passes validation and the command is sent, while `0` and `256`
are rejected locally with nothing sent and the configuration unchanged. -/
theorem dispatch_validation_bounds (cfg : Config) (t : Int) (h1 : 1 ≤ t) (h2 : t ≤ 255) :
    set_motor_pulley true t cfg = (cfg, some (Command.setMotorPulley t)) ∧
    set_wheel_pulley true t cfg = (cfg, some (Command.setWheelPulley t)) ∧
    set_wheel_size true t cfg = (cfg, some (Command.setWheelSize t)) ∧
    set_motor_poles true t cfg = (cfg, some (Command.setMotorPoles t)) ∧
    set_motor_pulley true 0 cfg = (cfg, none) ∧
    set_motor_pulley true 256 cfg = (cfg, none) ∧
    set_wheel_pulley true 0 cfg = (cfg, none) ∧
    set_wheel_pulley true 256 cfg = (cfg, none) ∧
    set_wheel_size true 0 cfg = (cfg, none) ∧
    set_wheel_size true 256 cfg = (cfg, none) ∧
    set_motor_poles true 0 cfg = (cfg, none) ∧
    set_motor_poles true 256 cfg = (cfg, none) := by
  have hv : ¬(t ≤ 0 ∨ t > 255) := by omega
  refine ⟨?_, ?_, ?_, ?_, rfl, rfl, rfl, rfl, rfl, rfl, rfl, rfl⟩
  · unfold set_motor_pulley
    rw [if_neg (by simp), if_neg hv]
  · unfold set_wheel_pulley
    rw [if_neg (by simp), if_neg hv]
  · unfold set_wheel_size
    rw [if_neg (by simp), if_neg hv]
  · unfold set_motor_poles
    rw [if_neg (by simp), if_neg hv]

/-- Witness for `dispatch_validation_bounds` at the concrete value 7. -/
theorem dispatch_validation_bounds_witness :
    set_motor_pulley true 7 defaultConfig = (defaultConfig, some (Command.setMotorPulley 7)) :=
  (dispatch_validation_bounds defaultConfig 7 (by decide) (by decide)).1

/-- Claim C10: whenever the cleaner returns a text, that text is non-empty
and every one of its lines is already whitespace-trimmed, non-empty, and not
the lone prompt marker. -/
theorem clean_response_output_invariant (s t : String) (h : clean_response s = some t) :
    t ≠ "" ∧ ∀ l ∈ splitNl t.data, pyStrip l = l ∧ l ≠ [] ∧ l ≠ ['>'] := by
  obtain ⟨hne, hdata⟩ := clean_response_eq_some h
  have hprops : ∀ x ∈ (splitNl (ansiSub s.data)).filterMap filterLine,
      pyStrip x = x ∧ x ≠ [] ∧ x ≠ ['>'] := by
    intro x hx
    obtain ⟨a, ha, hfa⟩ := List.mem_filterMap.mp hx
    obtain ⟨hm, hx1, -, hx3⟩ := filterLine_eq_some hfa
    exact ⟨by rw [hm, pyStrip_idem], hx1, hx3⟩
  have hnl : ∀ x ∈ (splitNl (ansiSub s.data)).filterMap filterLine, '\n' ∉ x := by
    intro x hx hmem
    obtain ⟨a, ha, hfa⟩ := List.mem_filterMap.mp hx
    obtain ⟨hm, -, -, -⟩ := filterLine_eq_some hfa
    exact noNl_of_mem_splitNl ha (mem_pyStrip (hm ▸ hmem))
  constructor
  · intro ht
    have hd : t.data = [] := by rw [ht]
    rw [hdata] at hd
    exact joinNl_ne_nil hne (fun x hx => (hprops x hx).2.1) hd
  · intro l hl
    rw [hdata, splitNl_joinNl hne hnl] at hl
    exact hprops l hl

/-- Witness for `clean_response_output_invariant` at a concrete input. -/
theorem clean_response_output_invariant_witness :
    ("x\ny" : String) ≠ "" ∧
      ∀ l ∈ splitNl ("x\ny" : String).data, pyStrip l = l ∧ l ≠ [] ∧ l ≠ ['>'] :=
  clean_response_output_invariant "  x  \n>\nI (5)\ny" "x\ny" (by decide)

end ESP32
